import Mathlib

/-!
Shallow embedding of `src/debian_mirror_speedtest.py` (a Debian mirror
speed tester) and proofs about the claims of its specification.

Conventions:
* Python strings are Lean `String`s; character-level operations work on
  `String.data` (`List Char`).
* Python floats (durations, speeds) are modelled as rationals `ℚ`.
* The network is an oracle `Net : String → Option ProbeResponse`; `none`
  models any transport error, timeout or non-success status (anything that
  makes the request raise), `some r` a successful streamed response.
-/

namespace MirrorSpeed

/-- `self.timeout = 1` (line 36), in seconds. -/
def timeout : ℚ := 1

/-- `self.chunk_size = 65536` (line 37). -/
def chunk_size : Nat := 65536

/-- `self.download_limit = 512 * 1024` (line 38). -/
def download_limit : Nat := 512 * 1024

/-- `self.max_connections = 12` (line 39). -/
def max_connections : Nat := 12

/-! ### String primitives (models of the Python `str` operations used) -/

/-- Boolean "is a prefix of" on character lists (model of `str.startswith`
and of the prefix tests behind `in` / `find`). -/
def isPrefixL : List Char → List Char → Bool
  | [], _ => true
  | _ :: _, [] => false
  | a :: as, b :: bs => a == b && isPrefixL as bs

/-- Python `s.startswith(p)` (line 78). -/
def startswith (p s : String) : Bool := isPrefixL p.data s.data

/-- First index at which `pat` occurs in `s`: Python `s.find(pat)` when the
result is non-negative, `none` when `pat in s` is false. -/
def findSub (pat : List Char) : List Char → Option Nat
  | [] => if isPrefixL pat [] then some 0 else none
  | c :: rest =>
    if isPrefixL pat (c :: rest) then some 0
    else (findSub pat rest).map (· + 1)

/-- The literal `'/debian/'` of line 104. -/
def debianMarker : List Char := ("/debian/").toList

/-- Python `s.rsplit('/', 4)[0]` (line 104): with `k` slashes in `s`, the
result keeps the first `parts.length - min k 4` slash-separated parts. -/
def rsplitDrop4 (s : String) : String :=
  let parts := s.splitOn "/"
  String.intercalate "/" (parts.take (parts.length - min (parts.length - 1) 4))

/-- Line 104:
`mirror[:mirror.find('/debian/')+8] if '/debian/' in mirror else mirror.rsplit('/', 4)[0]`. -/
def base_url (mirror : String) : String :=
  match findSub debianMarker mirror.data with
  | some i => String.mk (mirror.data.take (i + 8))
  | none => rsplitDrop4 mirror

/-! ### Models of `urllib.parse.urlparse` / `urljoin`

Only the behaviour exercised by this program is modelled: absolute
`scheme://netloc/path` base URLs and scheme-less relative paths, no
dot-segments (the repository's relative paths contain none). -/

/-- The netloc component of `urlparse`: the text between `://` and the next
`/`, `?` or `#`; empty when the URL has no `://`. -/
def netlocOf (u : String) : String :=
  match findSub ("://").toList u.data with
  | some i =>
    String.mk ((u.data.drop (i + 3)).takeWhile (fun c => !(c == '/' || c == '?' || c == '#')))
  | none => ""

/-- The path component of `urlparse`: everything after the netloc, with any
query or fragment removed. -/
def pathOf (u : String) : String :=
  match findSub ("://").toList u.data with
  | some i =>
    String.mk (((u.data.drop (i + 3)).dropWhile
      (fun c => !(c == '/' || c == '?' || c == '#'))).takeWhile
      (fun c => !(c == '?' || c == '#')))
  | none => String.mk (u.data.takeWhile (fun c => !(c == '?' || c == '#')))

/-- Index of the last `'/'` in a character list, if any. -/
def findLastSlash : List Char → Option Nat
  | [] => none
  | c :: rest =>
    match findLastSlash rest with
    | some i => some (i + 1)
    | none => if c == '/' then some 0 else none

/-- The RFC 3986 "merge" directory of a path: everything up to and including
the last `/`, or the root `/` when the path has no slash. -/
def dirOfPath (p : String) : String :=
  match findLastSlash p.data with
  | some i => String.mk (p.data.take (i + 1))
  | none => "/"

/-- Model of `urljoin(mirror, test_file)` (line 77) for the URL shapes this
program produces: an absolute relative part wins; a root-relative path
replaces the base path; otherwise the relative path is resolved against the
directory of the base path. -/
def urljoin (base rel : String) : String :=
  if (findSub ("://").toList rel.data).isSome then rel
  else
    match findSub ("://").toList base.data with
    | some i =>
      let root := String.mk (base.data.take (i + 3)) ++ netlocOf base
      if rel.data.head? = some '/' then root ++ rel
      else root ++ dirOfPath (pathOf base) ++ rel
    | none => rel

/-! ### The probe: `test_mirror_speed` (lines 75–109) -/

/-- One chunk yielded by `response.iter_content(chunk_size=…)` (line 93): its
byte length together with the value of `time.time() - start_time` observed at
the elapsed-time check run after this chunk is accumulated (line 98). -/
structure Chunk where
  len : Nat
  elapsed : ℚ
deriving DecidableEq

/-- The observable behaviour of one successful streamed GET (lines 84–101):
the body chunks the stream yields and the final `time.time() - start_time`
value of line 101. -/
structure ProbeResponse where
  chunks : List Chunk
  duration : ℚ
deriving DecidableEq

/-- Network oracle: `none` for a URL models a transport error, timeout or
non-success status (`raise_for_status`, line 90) — anything that raises and
is caught by the bare `except` of line 106; `some r` a successful response. -/
def Net : Type := String → Option ProbeResponse

/-- Lines 92–99: accumulate chunk lengths into `total_size`, skipping falsy
(empty) chunks, and stop as soon as the total reaches `download_limit` or the
elapsed time exceeds `timeout`. -/
def read_loop : List Chunk → Nat → Nat
  | [], total_size => total_size
  | c :: rest, total_size =>
    if c.len = 0 then read_loop rest total_size
    else
      let t := total_size + c.len
      if download_limit ≤ t then t
      else if timeout < c.elapsed then t
      else read_loop rest t

/-- Line 82: `f"{scheme}://{urlparse(url).netloc}{urlparse(url).path}"`. -/
def test_url (scheme url : String) : String :=
  scheme ++ "://" ++ netlocOf url ++ pathOf url

/-- Lines 83–105 for one scheme: issue the GET, read the body, and produce
the speed sample of line 103 when `duration > 0 and total_size > 0`.
`none` covers both an exception (caught at line 106) and a failed line 102
guard; either way the loop moves on to the next scheme. -/
def attempt (net : Net) (tu : String) : Option ℚ :=
  match net tu with
  | none => none
  | some resp =>
    let total_size := read_loop resp.chunks 0
    if 0 < resp.duration ∧ 0 < total_size then
      some ((total_size : ℚ) / resp.duration / 1024 / 1024)
    else none

/-- The line 103 sample value for a stream read to `chunks` over `d` seconds:
bytes received divided by elapsed seconds divided by 1024·1024. Definitionally
the value `attempt` wraps in `some` on success. -/
def speed_value (chunks : List Chunk) (d : ℚ) : ℚ :=
  (read_loop chunks 0 : ℚ) / d / 1024 / 1024

/-- Line 78: `['https', 'http'] if mirror.startswith('http://') else ['http', 'https']`. -/
def schemes (mirror : String) : List String :=
  if startswith "http://" mirror then ["https", "http"] else ["http", "https"]

/-- The `for scheme in schemes` loop of lines 80–107 and the fall-through
`return None, 0` of line 109. -/
def probe_loop (net : Net) (mirror url : String) : List String → Option String × ℚ
  | [] => (none, 0)
  | scheme :: rest =>
    match attempt net (test_url scheme url) with
    | some speed => (some (base_url mirror), speed)
    | none => probe_loop net mirror url rest

/-- Lines 75–109: `test_mirror_speed(mirror, test_file)` against network
oracle `net`. -/
def test_mirror_speed (mirror test_file : String) (net : Net) : Option String × ℚ :=
  probe_loop net mirror (urljoin mirror test_file) (schemes mirror)

/-! ### The mirror source: `get_mirrors` (lines 54–73) -/

/-- An `<a>` element as the parser sees it: only its `href` attribute
(`link.get('href')`, absent ⇒ `None`) matters. -/
structure Anchor where
  href : Option String
deriving DecidableEq

/-- A table cell: only the first anchor (`cols[1].find('a')`, line 65)
matters. -/
structure Cell where
  firstAnchor : Option Anchor
deriving DecidableEq

/-- A table row: its sequence of `<td>` cells (line 63). -/
structure Row where
  cells : List Cell
deriving DecidableEq

/-- The parsed HTML document, as the sequence of rows `soup.find_all('tr')`
yields (line 62). -/
structure Soup where
  rows : List Row
deriving DecidableEq

/-- Lines 62–67: for each row with at least two cells whose second cell has a
first anchor with a truthy `href` (in Python, `None` and the empty string are
both falsy), collect `link['href']` in row order. -/
def extract_hrefs (soup : Soup) : List String :=
  soup.rows.flatMap (fun row =>
    if 2 ≤ row.cells.length then
      match row.cells[1]? with
      | some cell =>
        match cell.firstAnchor with
        | some link =>
          match link.href with
          | some h => if h = "" then [] else [h]
          | none => []
        | none => []
      | none => []
    else [])

/-- Line 69: `list(dict.fromkeys(mirrors))` — drop every string already seen,
keeping first occurrences in order. -/
def dict_fromkeys (seen : List String) : List String → List String
  | [] => []
  | x :: rest =>
    if x ∈ seen then dict_fromkeys seen rest
    else x :: dict_fromkeys (x :: seen) rest

/-- Lines 54–73: `get_mirrors`. The argument is the outcome of
`requests.get(self.mirrors_url)` followed by `raise_for_status()` and
parsing: `.error` when the GET raises or the status is non-success, `.ok`
with the parsed document otherwise. The `except` of lines 71–73 logs the
error and returns the empty list. -/
def get_mirrors (fetch : Except String Soup) : List String :=
  match fetch with
  | .error _ => []
  | .ok soup => dict_fromkeys [] (extract_hrefs soup)

/-! ### The scheduler loop of `main` (lines 120–134) -/

/-- What `future.result()` (line 129) yields for one submitted task:
`.error` models an unexpected exception escaping the task (caught by the
bare `except` of lines 132–133), `.ok` the pair the probe returned. -/
def TaskOutcome : Type := Except String (Option String × ℚ)

/-- Line 131: `arch_results[base_url] = speed` — a Python dict assignment
overwrites in place or appends, preserving insertion order. -/
def dict_set (d : List (String × ℚ)) (k : String) (v : ℚ) : List (String × ℚ) :=
  if d.any (fun p => p.1 == k) then d.map (fun p => if p.1 = k then (k, v) else p)
  else d ++ [(k, v)]

/-- Lines 128–133: record one task outcome when `base_url and speed > 0`
(Python truthiness: `None` and `""` are falsy), else discard it. -/
def collect_step (arch_results : List (String × ℚ)) (r : TaskOutcome) :
    List (String × ℚ) :=
  match r with
  | .error _ => arch_results
  | .ok (some b, speed) =>
    if b ≠ "" ∧ 0 < speed then dict_set arch_results b speed else arch_results
  | .ok (none, _) => arch_results

/-- Lines 126–134: the `as_completed` loop over `outcomes`, the task results
in completion order. Returns the ResultSet together with the final progress
count (`pbar.update(1)` runs once per iteration on every path). -/
def scheduler (outcomes : List TaskOutcome) : List (String × ℚ) × Nat :=
  outcomes.foldl (fun acc r => (collect_step acc.1 r, acc.2 + 1)) ([], 0)

/-! ### Ranker and report (lines 116 and 136–156) -/

/-- Lines 137–141: `sorted(arch_results.items(), key=…, reverse=True)[:5]` —
sort by speed descending (Python's sort is a stable merge sort) and keep the
first five. -/
def rank (arch_results : List (String × ℚ)) : List (String × ℚ) :=
  (arch_results.mergeSort (fun a b => decide (b.2 ≤ a.2))).take 5

/-- `f"{mirror:<40}"`: pad on the right with spaces to width 40. -/
def padRight (s : String) (n : Nat) : String :=
  s ++ String.mk (List.replicate (n - s.data.length) ' ')

/-- `f"{speed:>8.2f}"`, width part: pad on the left with spaces to width 8. -/
def padLeft (s : String) (n : Nat) : String :=
  String.mk (List.replicate (n - s.data.length) ' ') ++ s

/-- Two-decimal rendering of a nonnegative rational, modelling `:.2f`
(up to the binary-float rounding of ties, which no claim depends on). -/
def fmt2 (q : ℚ) : String :=
  let n := (Int.floor (q * 100 + 1 / 2)).toNat
  toString (n / 100) ++ "." ++ (if n % 100 < 10 then "0" else "") ++ toString (n % 100)

/-- Line 148: `f"{mirror:<40} {speed:>8.2f}"`. -/
def table_line (p : String × ℚ) : String :=
  padRight p.1 40 ++ " " ++ padLeft (fmt2 p.2) 8

/-- Lines 116 and 143–156: the stdout lines of `main` for a run that tested
`mirrors` and aggregated `arch_results`; each `print(x)` contributes the
newline-separated lines of `x` (a leading `\n` yields an empty line).
The `tqdm` progress bar writes to stderr and is not part of this stream. -/
def main_output (mirrors : List String) (arch_results : List (String × ℚ)) :
    List String :=
  let sorted_mirrors := rank arch_results
  ["", "Testing " ++ toString mirrors.length ++ " mirrors..."] ++
  (match sorted_mirrors with
   | [] => ["", "No working mirrors found"]
   | (m0, _) :: _ =>
     ["", "Top 5 mirrors by Packages.gz download speed:",
      "", "Mirror                                     Speed (MB/s)",
      String.mk (List.replicate 60 '-')] ++
     sorted_mirrors.map table_line ++
     ["", "Sources list entries for fastest mirror:",
      "deb " ++ m0 ++ " stable main contrib non-free",
      "deb " ++ m0 ++ " stable-updates main contrib non-free"]) ++
  ["", "Tested " ++ toString mirrors.length ++ " mirrors, found " ++
    toString arch_results.length ++ " working"]

/-- Lines 111–156: one whole run, given the directory-fetch outcome, the
architecture's test file and the network oracle. Task outcomes are taken in
submission order; no claim proved below depends on the completion order. -/
def main_run (fetch : Except String Soup) (test_file : String) (net : Net) :
    List String :=
  let mirrors := get_mirrors fetch
  let outcomes : List TaskOutcome :=
    mirrors.map (fun m => Except.ok (test_mirror_speed m test_file net))
  main_output mirrors (scheduler outcomes).1

/-! ### Concrete network oracles used in counterexamples and witnesses -/

/-- Oracle under which both rewritten URLs of the plain-HTTP candidate
`http://h/debian/` respond: the secure variant delivers 100 bytes in one second,
the plain variant 200 bytes in one second. -/
def netBoth : Net := fun u =>
  if u = "https://h/debian/f" then some ⟨[⟨100, 0⟩], 1⟩
  else if u = "http://h/debian/f" then some ⟨[⟨200, 0⟩], 1⟩
  else none

/-- Oracle under which only the plain rewrite of `https://h/debian/` responds,
with a single 512 KiB chunk delivered in one second. -/
def netFull : Net := fun u =>
  if u = "http://h/debian/f" then some ⟨[⟨524288, 0⟩], 1⟩ else none

/-- Oracle under which only the secure rewrite of `http://m.example.org/debian/`
responds, with 1000 bytes in one second. -/
def netSecureOnly : Net := fun u =>
  if u = "https://m.example.org/debian/f" then some ⟨[⟨1000, 0⟩], 1⟩ else none

/-- Oracle under which every request fails. -/
def netNone : Net := fun _ => none

/-! ### Helper lemmas: the substring search -/

theorem isPrefixL_iff (p : List Char) : ∀ l, isPrefixL p l = true ↔ ∃ t, p ++ t = l := by
  induction p with
  | nil => intro l; simp [isPrefixL]
  | cons a as ih =>
    intro l
    cases l with
    | nil => simp [isPrefixL]
    | cons b bs =>
      simp only [isPrefixL, Bool.and_eq_true, beq_iff_eq]
      constructor
      · rintro ⟨rfl, h2⟩
        obtain ⟨t, rfl⟩ := (ih bs).mp h2
        exact ⟨t, rfl⟩
      · rintro ⟨t, ht⟩
        injection ht with h1 h2
        subst h1
        exact ⟨rfl, (ih bs).mpr ⟨t, h2⟩⟩

theorem findSub_some_occurs {pat : List Char} :
    ∀ {s : List Char} {i : Nat}, findSub pat s = some i → ∃ t, pat ++ t = s.drop i := by
  intro s
  induction s with
  | nil =>
    intro i h
    simp only [findSub] at h
    split at h
    · injection h with h'
      subst h'
      simpa using (isPrefixL_iff pat []).mp (by assumption)
    · cases h
  | cons c rest ih =>
    intro i h
    simp only [findSub] at h
    split at h
    · injection h with h'
      subst h'
      simpa using (isPrefixL_iff pat (c :: rest)).mp (by assumption)
    · cases hr : findSub pat rest with
      | none => rw [hr] at h; cases h
      | some i' =>
        rw [hr] at h
        injection h with h'
        subst h'
        simpa using ih hr

theorem findSub_some_least {pat : List Char} :
    ∀ {s : List Char} {i : Nat}, findSub pat s = some i →
      ∀ j, j < i → ∀ u, pat ++ u ≠ s.drop j := by
  intro s
  induction s with
  | nil =>
    intro i h j hj u
    simp only [findSub] at h
    split at h
    · injection h with h'; omega
    · cases h
  | cons c rest ih =>
    intro i h j hj u hu
    simp only [findSub] at h
    split at h
    · injection h with h'; omega
    · cases hr : findSub pat rest with
      | none => rw [hr] at h; cases h
      | some i' =>
        rw [hr] at h
        injection h with h'
        have h'' : i' + 1 = i := h'
        subst h''
        cases j with
        | zero =>
          rename_i hp
          exact hp ((isPrefixL_iff pat (c :: rest)).mpr ⟨u, by simpa using hu⟩)
        | succ k =>
          exact ih hr k (by omega) u (by simpa using hu)

theorem findSub_isSome_of_occurs {pat : List Char} :
    ∀ {s : List Char} {j : Nat} {t : List Char},
      pat ++ t = s.drop j → (findSub pat s).isSome = true := by
  intro s
  induction s with
  | nil =>
    intro j t h
    simp only [List.drop_nil] at h
    obtain ⟨rfl, rfl⟩ := List.append_eq_nil.mp h
    simp [findSub, isPrefixL]
  | cons c rest ih =>
    intro j t h
    simp only [findSub]
    split
    · simp
    · rename_i hp
      cases j with
      | zero =>
        exact absurd ((isPrefixL_iff pat (c :: rest)).mpr ⟨t, by simpa using h⟩) hp
      | succ k =>
        have := @ih k t (by simpa using h)
        simpa using this

theorem findSub_eq_some_of {pat s : List Char} {i : Nat} {t : List Char}
    (hocc : pat ++ t = s.drop i)
    (hmin : ∀ j, j < i → ∀ u, pat ++ u ≠ s.drop j) :
    findSub pat s = some i := by
  have hs := findSub_isSome_of_occurs hocc
  cases hfs : findSub pat s with
  | none => rw [hfs] at hs; cases hs
  | some i' =>
    obtain ⟨u, hu⟩ := findSub_some_occurs hfs
    have h1 : ¬ i' < i := fun hlt => hmin i' hlt u hu
    have h2 : ¬ i < i' := fun hlt => findSub_some_least hfs i hlt t hocc
    have : i' = i := by omega
    rw [this]

/-! ### Helper lemmas: the read loop -/

theorem read_loop_lt {L : Nat} (chunks : List Chunk) :
    ∀ total, (∀ c ∈ chunks, c.len ≤ L) → total < download_limit →
      read_loop chunks total < download_limit + L := by
  induction chunks with
  | nil =>
    intro total _ ht
    simp only [read_loop]
    omega
  | cons c rest ih =>
    intro total hc ht
    have hcL : c.len ≤ L := hc c (List.mem_cons_self c rest)
    have hrest : ∀ d ∈ rest, d.len ≤ L := fun d hd => hc d (List.mem_cons_of_mem c hd)
    simp only [read_loop]
    by_cases h0 : c.len = 0
    · simp only [if_pos h0]
      exact ih total hrest ht
    · simp only [if_neg h0]
      by_cases h1 : download_limit ≤ total + c.len
      · simp only [if_pos h1]
        omega
      · simp only [if_neg h1]
        by_cases h2 : timeout < c.elapsed
        · simp only [if_pos h2]
          omega
        · simp only [if_neg h2]
          exact ih _ hrest (by omega)

/-! ### Helper lemmas: the probe loop -/

theorem probe_loop_success {net : Net} {mirror url : String} :
    ∀ {ss : List String} {b : String} {sp : ℚ},
      probe_loop net mirror url ss = (some b, sp) →
      b = base_url mirror ∧ ∃ s ∈ ss, attempt net (test_url s url) = some sp := by
  intro ss
  induction ss with
  | nil =>
    intro b sp h
    simp only [probe_loop] at h
    cases h
  | cons s rest ih =>
    intro b sp h
    simp only [probe_loop] at h
    cases ha : attempt net (test_url s url) with
    | some speed =>
      rw [ha] at h
      injection h with h1 h2
      injection h1 with h1
      exact ⟨h1.symm, s, List.mem_cons_self s rest, by rw [ha, h2]⟩
    | none =>
      rw [ha] at h
      obtain ⟨hb, s', hs', ha'⟩ := ih h
      exact ⟨hb, s', List.mem_cons_of_mem s hs', ha'⟩

theorem probe_loop_all_fail {net : Net} {mirror url : String} :
    ∀ {ss : List String},
      (∀ s ∈ ss, attempt net (test_url s url) = none) →
      probe_loop net mirror url ss = (none, 0) := by
  intro ss
  induction ss with
  | nil => intro; simp [probe_loop]
  | cons s rest ih =>
    intro h
    simp only [probe_loop]
    rw [h s (List.mem_cons_self s rest)]
    exact ih fun s' hs' => h s' (List.mem_cons_of_mem s hs')

theorem probe_loop_head_success {net : Net} {mirror url s : String}
    {rest : List String} {sp : ℚ}
    (h : attempt net (test_url s url) = some sp) :
    probe_loop net mirror url (s :: rest) = (some (base_url mirror), sp) := by
  simp only [probe_loop]
  rw [h]

/-! ### Helper lemmas: scheduler, dedup, ranker, report -/

theorem scheduler_foldl_count (outcomes : List TaskOutcome) :
    ∀ acc : List (String × ℚ) × Nat,
      (outcomes.foldl (fun acc r => (collect_step acc.1 r, acc.2 + 1)) acc).2 =
        acc.2 + outcomes.length := by
  induction outcomes with
  | nil => intro acc; simp
  | cons r rest ih =>
    intro acc
    rw [List.foldl_cons, ih]
    simp
    omega

theorem dict_fromkeys_mem (xs : List String) :
    ∀ seen a, a ∈ dict_fromkeys seen xs ↔ a ∈ xs ∧ a ∉ seen := by
  induction xs with
  | nil => simp [dict_fromkeys]
  | cons x rest ih =>
    intro seen a
    simp only [dict_fromkeys]
    by_cases hx : x ∈ seen
    · rw [if_pos hx, ih]
      constructor
      · rintro ⟨h1, h2⟩
        exact ⟨List.mem_cons_of_mem _ h1, h2⟩
      · rintro ⟨h1, h2⟩
        rcases List.mem_cons.mp h1 with rfl | h1
        · exact absurd hx h2
        · exact ⟨h1, h2⟩
    · rw [if_neg hx]
      constructor
      · intro hm
        rcases List.mem_cons.mp hm with rfl | hm'
        · exact ⟨List.mem_cons_self _ _, hx⟩
        · obtain ⟨h1, h2⟩ := (ih (x :: seen) a).mp hm'
          exact ⟨List.mem_cons_of_mem _ h1, fun hs => h2 (List.mem_cons_of_mem _ hs)⟩
      · rintro ⟨hm, hns⟩
        rcases List.mem_cons.mp hm with rfl | hm'
        · exact List.mem_cons_self _ _
        · by_cases hax : a = x
          · subst hax
            exact List.mem_cons_self _ _
          · refine List.mem_cons_of_mem _ ((ih (x :: seen) a).mpr ⟨hm', ?_⟩)
            intro hs
            rcases List.mem_cons.mp hs with h | h
            · exact hax h
            · exact hns h

theorem dict_fromkeys_sublist (xs : List String) :
    ∀ seen, List.Sublist (dict_fromkeys seen xs) xs := by
  induction xs with
  | nil => intro; simp [dict_fromkeys]
  | cons x rest ih =>
    intro seen
    simp only [dict_fromkeys]
    by_cases hx : x ∈ seen
    · rw [if_pos hx]
      exact (ih seen).trans (List.sublist_cons_self x rest)
    · rw [if_neg hx]
      exact List.Sublist.cons₂ x (ih (x :: seen))

theorem dict_fromkeys_nodup (xs : List String) :
    ∀ seen, (dict_fromkeys seen xs).Nodup := by
  induction xs with
  | nil => intro; simp [dict_fromkeys]
  | cons x rest ih =>
    intro seen
    simp only [dict_fromkeys]
    by_cases hx : x ∈ seen
    · rw [if_pos hx]
      exact ih seen
    · rw [if_neg hx]
      refine List.Nodup.cons ?_ (ih (x :: seen))
      intro hmem
      exact ((dict_fromkeys_mem rest _ x).mp hmem).2 (List.mem_cons_self x seen)

theorem rank_le_trans : ∀ a b c : String × ℚ,
    decide (b.2 ≤ a.2) = true → decide (c.2 ≤ b.2) = true →
      decide (c.2 ≤ a.2) = true := by
  intro a b c h1 h2
  simp only [decide_eq_true_eq] at *
  exact le_trans h2 h1

theorem rank_le_total : ∀ a b : String × ℚ,
    (decide (b.2 ≤ a.2) || decide (a.2 ≤ b.2)) = true := by
  intro a b
  simp only [Bool.or_eq_true, decide_eq_true_eq]
  exact (le_total b.2 a.2)

theorem rank_pairwise (results : List (String × ℚ)) :
    (results.mergeSort (fun a b => decide (b.2 ≤ a.2))).Pairwise
      (fun a b : String × ℚ => b.2 ≤ a.2) := by
  have h := @List.sorted_mergeSort (String × ℚ) (fun a b => decide (b.2 ≤ a.2))
    rank_le_trans rank_le_total results
  exact h.imp (fun hb => by simpa using hb)

theorem rank_sorted (results : List (String × ℚ)) :
    (rank results).Pairwise (fun a b : String × ℚ => b.2 ≤ a.2) :=
  List.Pairwise.sublist (List.take_sublist 5 _) (rank_pairwise results)

theorem rank_length (results : List (String × ℚ)) :
    (rank results).length = min 5 results.length := by
  simp [rank]

theorem rank_top (results : List (String × ℚ)) :
    ∃ rest, (rank results ++ rest).Perm results ∧
      ∀ a ∈ rank results, ∀ b ∈ rest, b.2 ≤ a.2 := by
  refine ⟨(results.mergeSort (fun a b => decide (b.2 ≤ a.2))).drop 5, ?_, ?_⟩
  · rw [rank, List.take_append_drop]
    exact List.mergeSort_perm results _
  · have h := rank_pairwise results
    rw [← List.take_append_drop 5 (results.mergeSort (fun a b => decide (b.2 ≤ a.2)))] at h
    have := (List.pairwise_append.mp h).2.2
    exact fun a ha b hb => this a ha b hb

theorem rank_nil : rank ([] : List (String × ℚ)) = [] := by
  simp [rank]

theorem getLast?_shape (l : List String) (x y : String) :
    (l ++ [x, y]).getLast? = some y := by
  have h : l ++ [x, y] = (l ++ [x]) ++ [y] := by simp
  rw [h, List.getLast?_concat]

theorem main_output_getLast (mirrors : List String) (results : List (String × ℚ)) :
    (main_output mirrors results).getLast? =
      some ("Tested " ++ toString mirrors.length ++ " mirrors, found " ++
        toString results.length ++ " working") := by
  unfold main_output
  exact getLast?_shape _ _ _

/-! ### Claim theorems -/

/-- C1 counterexample: for the plain-HTTP candidate `http://h/debian/` the probe
tries the secure scheme FIRST — with both schemes responding it returns the
secure attempt's sample (100 bytes), not the plain attempt's (200 bytes),
contradicting the claimed plain-first trial order. -/
theorem scheme_order_counterexample :
    startswith "http://" "http://h/debian/" = true ∧
    schemes "http://h/debian/" = ["https", "http"] ∧
    test_mirror_speed "http://h/debian/" "f" netBoth
      = (some "http://h/debian/", speed_value [⟨100, 0⟩] 1) ∧
    attempt netBoth (test_url "http" (urljoin "http://h/debian/" "f"))
      = some (speed_value [⟨200, 0⟩] 1) ∧
    speed_value [⟨100, 0⟩] 1 ≠ speed_value [⟨200, 0⟩] 1 := by
  refine ⟨rfl, rfl, rfl, rfl, ?_⟩
  norm_num [speed_value, show read_loop [(⟨100, 0⟩ : Chunk)] 0 = 100 from rfl,
    show read_loop [(⟨200, 0⟩ : Chunk)] 0 = 200 from rfl]

/-- C1 (amended): the probe's scheme trial order is the reverse of the claimed
one: a candidate whose own scheme is plain HTTP has the secure scheme tried
first (a usable secure sample wins regardless of the plain scheme's behaviour),
and any other candidate has the plain scheme tried first. -/
theorem scheme_order_amended :
    (∀ (mirror tf : String) (net : Net) (sp : ℚ),
        startswith "http://" mirror = true →
        attempt net (test_url "https" (urljoin mirror tf)) = some sp →
        test_mirror_speed mirror tf net = (some (base_url mirror), sp)) ∧
    (∀ (mirror tf : String) (net : Net) (sp : ℚ),
        startswith "http://" mirror = false →
        attempt net (test_url "http" (urljoin mirror tf)) = some sp →
        test_mirror_speed mirror tf net = (some (base_url mirror), sp)) := by
  constructor
  · intro mirror tf net sp hs ha
    have hsch : schemes mirror = ["https", "http"] := by simp [schemes, hs]
    unfold test_mirror_speed
    rw [hsch]
    exact probe_loop_head_success ha
  · intro mirror tf net sp hs ha
    have hsch : schemes mirror = ["http", "https"] := by simp [schemes, hs]
    unfold test_mirror_speed
    rw [hsch]
    exact probe_loop_head_success ha

/-- C1 witness: the amended order theorem applied to the concrete plain-HTTP
candidate `http://h/debian/` and the two-scheme oracle. -/
theorem scheme_order_amended_witness :
    test_mirror_speed "http://h/debian/" "f" netBoth
      = (some (base_url "http://h/debian/"), speed_value [⟨100, 0⟩] 1) :=
  scheme_order_amended.1 "http://h/debian/" "f" netBoth (speed_value [⟨100, 0⟩] 1)
    rfl rfl

/-- C2 counterexample: when the directory fetch fails, `get_mirrors` does not
propagate the error — it returns the empty candidate list, and the run carries
on to print a normal zero-mirror report. -/
theorem fetch_error_counterexample :
    get_mirrors (Except.error "HTTP 503 Service Unavailable") = [] ∧
    main_run (Except.error "HTTP 503 Service Unavailable")
        "dists/stable/main/binary-amd64/Packages.gz" netNone
      = main_output [] [] ∧
    (main_output [] []).getLast? = some "Tested 0 mirrors, found 0 working" := by
  refine ⟨rfl, rfl, (main_output_getLast [] []).trans (by decide)⟩

/-- C2 (amended): if the directory GET raises or returns a non-success status,
`get_mirrors` catches the error, logs it, and returns an empty candidate list;
the run is not aborted and proceeds to report zero tested mirrors. -/
theorem fetch_error_amended :
    (∀ e : String, get_mirrors (Except.error e) = []) ∧
    (∀ (e tf : String) (net : Net),
        main_run (Except.error e) tf net = main_output [] []) :=
  ⟨fun _ => rfl, fun _ _ _ => rfl⟩

/-- C3 counterexample: a probe that receives 524288 bytes in one second returns
the value 1/2 — bytes divided by seconds divided by 1024·1024 — and not
524288, the bytes-per-second value the claim specifies. -/
theorem throughput_unit_counterexample :
    test_mirror_speed "https://h/debian/" "f" netFull
      = (some "https://h/debian/", speed_value [⟨524288, 0⟩] 1) ∧
    read_loop [⟨524288, 0⟩] 0 = 524288 ∧
    speed_value [⟨524288, 0⟩] 1 = (1 : ℚ) / 2 ∧
    ((1 : ℚ) / 2) ≠ (524288 : ℚ) / 1 := by
  refine ⟨rfl, rfl, ?_, by norm_num⟩
  norm_num [speed_value, show read_loop [(⟨524288, 0⟩ : Chunk)] 0 = 524288 from rfl]

/-- C3 (amended): every successful per-scheme attempt returns bytes received
divided by elapsed seconds divided by 1024·1024 — megabytes per second, as the
code's `# MB/s` comment says, not bytes per second — and every successful
probe's value is one of its schemes' attempt values. -/
theorem throughput_formula_amended :
    (∀ (net : Net) (tu : String) (r : ProbeResponse) (sp : ℚ),
        net tu = some r → attempt net tu = some sp →
        sp = (read_loop r.chunks 0 : ℚ) / r.duration / 1024 / 1024) ∧
    (∀ (mirror tf : String) (net : Net) (b : String) (sp : ℚ),
        test_mirror_speed mirror tf net = (some b, sp) →
        ∃ s ∈ schemes mirror,
          attempt net (test_url s (urljoin mirror tf)) = some sp) := by
  constructor
  · intro net tu r sp hnet hat
    unfold attempt at hat
    rw [hnet] at hat
    dsimp only at hat
    split at hat
    · injection hat with h
      exact h.symm
    · cases hat
  · intro mirror tf net b sp h
    exact (probe_loop_success h).2

/-- C3 witness: the amended formula instantiated at the one-chunk 512 KiB
response delivered in one second. -/
theorem throughput_formula_witness :
    speed_value [⟨524288, 0⟩] 1 = (read_loop [⟨524288, 0⟩] 0 : ℚ) / 1 / 1024 / 1024 :=
  throughput_formula_amended.1 netFull "http://h/debian/f" ⟨[⟨524288, 0⟩], 1⟩
    (speed_value [⟨524288, 0⟩] 1) rfl rfl

/-- C4 counterexample: nine 65535-byte chunks (each below `chunk_size`) drive
the accumulated total to 589815 bytes, exceeding the 524288-byte cap — the loop
breaks only after adding the chunk that crosses the cap. -/
theorem byte_cap_counterexample :
    read_loop (List.replicate 9 ⟨65535, 0⟩) 0 = 589815 ∧
    ((List.replicate 9 (⟨65535, 0⟩ : Chunk)).all
      (fun c => decide (c.len ≤ chunk_size))) = true ∧
    download_limit = 524288 ∧ 524288 < 589815 := by
  refine ⟨by decide, by decide, rfl, by norm_num⟩

/-- C4 (amended): the accumulated byte count can exceed the 512 KiB cap, but
only by less than one chunk: when every chunk the stream supplies is at most
`L` bytes, the total stays below `download_limit + L` (reading stops at the
first chunk that reaches the cap). -/
theorem byte_cap_amended (chunks : List Chunk) (L : Nat)
    (h : ∀ c ∈ chunks, c.len ≤ L) :
    read_loop chunks 0 < download_limit + L :=
  read_loop_lt chunks 0 h (by norm_num [download_limit])

/-- C4 witness: the amended bound at a single 65535-byte chunk. -/
theorem byte_cap_amended_witness :
    read_loop [⟨65535, 0⟩] 0 < download_limit + 65535 :=
  byte_cap_amended [⟨65535, 0⟩] 65535 (by decide)

/-- C5 counterexample: the returned base URL keeps the candidate's plain scheme
even though only the SECURE probe request succeeded: it is derived from the
original candidate string, not from the successful scheme+host+path. -/
theorem base_url_source_counterexample :
    test_mirror_speed "http://m.example.org/debian/" "f" netSecureOnly
      = (some "http://m.example.org/debian/", speed_value [⟨1000, 0⟩] 1) ∧
    netSecureOnly (test_url "http" (urljoin "http://m.example.org/debian/" "f"))
      = none ∧
    base_url (test_url "https" (urljoin "http://m.example.org/debian/" "f"))
      = "https://m.example.org/debian/" ∧
    ("http://m.example.org/debian/" : String) ≠ "https://m.example.org/debian/" := by
  refine ⟨rfl, rfl, by decide, by decide⟩

/-- C5 (amended): for every successful probe, the returned base URL is derived
from the ORIGINAL candidate URL, not from the successful probe request:
truncated up to and including the first `/debian/` when present, otherwise the
candidate with its last four slash-separated segments dropped. -/
theorem base_url_amended (mirror tf : String) (net : Net) (b : String) (sp : ℚ)
    (h : test_mirror_speed mirror tf net = (some b, sp)) :
    b = base_url mirror :=
  (probe_loop_success h).1

/-- C5 witness: the amended derivation at the secure-only oracle. -/
theorem base_url_amended_witness :
    ("http://m.example.org/debian/" : String)
      = base_url "http://m.example.org/debian/" :=
  base_url_amended "http://m.example.org/debian/" "f" netSecureOnly
    "http://m.example.org/debian/" (speed_value [⟨1000, 0⟩] 1) rfl

/-- C6: the ranked report has length min(5, size of the ResultSet), is sorted
by throughput descending, consists — together with leftover entries that are
all no faster than any reported entry — of a permutation of the ResultSet,
and is empty when the ResultSet is empty. -/
theorem rank_spec (results : List (String × ℚ)) :
    (rank results).length = min 5 results.length ∧
    (rank results).Pairwise (fun a b : String × ℚ => b.2 ≤ a.2) ∧
    (∃ rest, (rank results ++ rest).Perm results ∧
      ∀ a ∈ rank results, ∀ b ∈ rest, b.2 ≤ a.2) ∧
    (results = [] → rank results = []) :=
  ⟨rank_length results, rank_sorted results, rank_top results,
    fun h => by rw [h]; exact rank_nil⟩

/-- C6 witness: the ranked report of the empty ResultSet is empty. -/
theorem rank_spec_witness : rank ([] : List (String × ℚ)) = [] :=
  (rank_spec []).2.2.2 rfl

/-- C7: per-scheme failures make the probe return the no-result value
`(none, 0)` rather than raise (a response with a zero-byte or zero-duration
sample also yields no result for that scheme); an exceptional task outcome or
a no-result outcome leaves the ResultSet unchanged; and the progress counter
advances exactly once per submitted task regardless of outcome. -/
theorem failure_isolation :
    (∀ (mirror tf : String) (net : Net),
        attempt net (test_url "https" (urljoin mirror tf)) = none →
        attempt net (test_url "http" (urljoin mirror tf)) = none →
        test_mirror_speed mirror tf net = (none, 0)) ∧
    (∀ (net : Net) (tu : String) (r : ProbeResponse),
        net tu = some r →
        ¬(0 < r.duration ∧ 0 < read_loop r.chunks 0) →
        attempt net tu = none) ∧
    (∀ outcomes : List TaskOutcome, (scheduler outcomes).2 = outcomes.length) ∧
    (∀ (res : List (String × ℚ)) (e : String),
        collect_step res (Except.error e) = res) ∧
    (∀ (res : List (String × ℚ)) (q : ℚ),
        collect_step res (Except.ok (none, q)) = res) := by
  refine ⟨?_, ?_, ?_, fun _ _ => rfl, fun _ _ => rfl⟩
  · intro mirror tf net h1 h2
    unfold test_mirror_speed
    apply probe_loop_all_fail
    intro s hs
    have hmem : s = "https" ∨ s = "http" := by
      unfold schemes at hs
      split at hs
      · simp at hs
        tauto
      · simp at hs
        tauto
    rcases hmem with rfl | rfl
    · exact h1
    · exact h2
  · intro net tu r hnet hcond
    unfold attempt
    rw [hnet]
    dsimp only
    rw [if_neg hcond]
  · intro outcomes
    simpa using scheduler_foldl_count outcomes ([], 0)

/-- C7 witness: the probe against an all-failing network returns the
no-result value. -/
theorem failure_isolation_witness :
    test_mirror_speed "http://h/debian/" "f" netNone = (none, 0) :=
  failure_isolation.1 "http://h/debian/" "f" netNone rfl rfl

/-- C8: the Mirror Source returns the extracted href sequence with
exact-string duplicates removed and first-occurrence order preserved (the
result is a duplicate-free sublist of the extracted sequence with exactly its
members); a 3-entry listing with one duplicated href yields 2 candidates. -/
theorem dedup_spec :
    (∀ soup : Soup,
        get_mirrors (Except.ok soup) = dict_fromkeys [] (extract_hrefs soup)) ∧
    (∀ xs : List String, List.Sublist (dict_fromkeys [] xs) xs) ∧
    (∀ xs : List String, (dict_fromkeys [] xs).Nodup) ∧
    (∀ (xs : List String) (a : String), a ∈ dict_fromkeys [] xs ↔ a ∈ xs) ∧
    dict_fromkeys [] ["http://a/debian/", "http://b/debian/", "http://a/debian/"]
      = ["http://a/debian/", "http://b/debian/"] := by
  refine ⟨fun _ => rfl, fun xs => dict_fromkeys_sublist xs [],
    fun xs => dict_fromkeys_nodup xs [], ?_, by decide⟩
  intro xs a
  rw [dict_fromkeys_mem]
  simp

/-- C9: with an empty ResultSet the report prints the "No working mirrors
found" message in place of the table; the summary line naming the tested and
successful counts is always printed last; and with zero candidates it reads
"Tested 0 mirrors, found 0 working". -/
theorem report_spec :
    (∀ mirrors : List String, main_output mirrors [] =
        ["", "Testing " ++ toString mirrors.length ++ " mirrors...",
         "", "No working mirrors found",
         "", "Tested " ++ toString mirrors.length ++ " mirrors, found " ++
           toString (0 : Nat) ++ " working"]) ∧
    (∀ (mirrors : List String) (results : List (String × ℚ)),
        (main_output mirrors results).getLast? =
          some ("Tested " ++ toString mirrors.length ++ " mirrors, found " ++
            toString results.length ++ " working")) ∧
    (main_output [] []).getLast? = some "Tested 0 mirrors, found 0 working" := by
  refine ⟨?_, main_output_getLast, (main_output_getLast [] []).trans (by decide)⟩
  intro mirrors
  unfold main_output
  rw [rank_nil]
  rfl

/-- C10: on its marker branch the base-URL normalization truncates at the
first occurrence of the marker keeping the marker itself, the marker is a
suffix of the result, and applying the normalization to its own output
returns the output unchanged. -/
theorem base_url_idempotent (m : String) (i : Nat)
    (h : findSub debianMarker m.data = some i) :
    base_url m = String.mk (m.data.take (i + 8)) ∧
    (∃ w, w ++ debianMarker = (base_url m).data) ∧
    base_url (base_url m) = base_url m := by
  have h8 : debianMarker.length = 8 := rfl
  obtain ⟨t, ht⟩ := findSub_some_occurs h
  have hb : base_url m = String.mk (m.data.take (i + 8)) := by
    unfold base_url
    rw [h]
  have hdrop : (m.data.take (i + 8)).drop i = debianMarker := by
    rw [List.drop_take]
    have hii : i + 8 - i = 8 := by omega
    rw [hii, ← ht]
    exact List.take_left' h8
  have hsuf : ∃ w, w ++ debianMarker = (base_url m).data := by
    refine ⟨(m.data.take (i + 8)).take i, ?_⟩
    rw [hb]
    calc (m.data.take (i + 8)).take i ++ debianMarker
        = (m.data.take (i + 8)).take i ++ (m.data.take (i + 8)).drop i := by
          rw [hdrop]
      _ = m.data.take (i + 8) := List.take_append_drop i _
  have hfs : findSub debianMarker (m.data.take (i + 8)) = some i := by
    have hocc0 : debianMarker ++ ([] : List Char) = (m.data.take (i + 8)).drop i := by
      rw [List.append_nil]
      exact hdrop.symm
    apply findSub_eq_some_of hocc0
    intro j hj u hu
    rw [List.drop_take] at hu
    apply findSub_some_least h j hj (u ++ (m.data.drop j).drop (i + 8 - j))
    rw [← List.append_assoc, hu, List.take_append_drop]
  refine ⟨hb, hsuf, ?_⟩
  rw [hb]
  unfold base_url
  dsimp only
  rw [hfs]
  dsimp only
  rw [List.take_take]
  rw [min_self]

/-- C10 witness: the idempotence facts at the concrete URL
`http://x/debian/extra`, whose marker occurrence starts at index 8. -/
theorem base_url_idempotent_witness :
    base_url "http://x/debian/extra"
      = String.mk (("http://x/debian/extra").data.take (8 + 8)) ∧
    (∃ w, w ++ debianMarker = (base_url "http://x/debian/extra").data) ∧
    base_url (base_url "http://x/debian/extra") = base_url "http://x/debian/extra" :=
  base_url_idempotent "http://x/debian/extra" 8 (by decide)

end MirrorSpeed
